import Mathlib

/-!
Shallow embedding of `script.py`, the static-site generator of
pbeart/pbeart.github.io, together with theorems settling the claims about
its specification.  Every definition is translated from the source file;
definitions whose name contains `Spec` restate the specification's words
and are compared against the source-derived definitions.
-/

namespace Script

/-- Calendar timestamp, the fields of a Python `datetime` that the build
reads (`value.day`, `%B` month, `%Y` year in `format_datetime`). -/
structure Datetime where
  year : Nat
  month : Nat
  day : Nat
deriving Repr, DecidableEq

/-- The `Post` dataclass of `script.py` (lines 15-23). -/
structure Post where
  title : String
  url : String
  extract : String
  published : Datetime
  html : String
  updated : Option Datetime := none
  math_enabled : Bool := false
deriving Repr, DecidableEq

/-! ## Date formatting (`format_datetime`, lines 36-47) -/

/-- The ordinal-suffix selection of `format_datetime`: the chain of
membership tests `value.day in [1,21,31]`, `[2,22]`, `[3,23]`. -/
def ordinal_suffix (day : Nat) : String :=
  if day ∈ [1, 21, 31] then "st"
  else if day ∈ [2, 22] then "nd"
  else if day ∈ [3, 23] then "rd"
  else "th"

/-- Full English month name, the expansion of `%B` in `strftime`. -/
def monthName : Nat → String
  | 1 => "January"
  | 2 => "February"
  | 3 => "March"
  | 4 => "April"
  | 5 => "May"
  | 6 => "June"
  | 7 => "July"
  | 8 => "August"
  | 9 => "September"
  | 10 => "October"
  | 11 => "November"
  | 12 => "December"
  | _ => ""

/-- Zero-padded two-digit day, the expansion of `%d` in `strftime`. -/
def pad2 (n : Nat) : String :=
  if n < 10 then "0" ++ toString n else toString n

/-- `format_datetime` (lines 36-47): renders
`%d<sup>SUFFIX</sup> of %B %Y` with the suffix chosen by the chain of
membership tests above. -/
def format_datetime (v : Datetime) : String :=
  pad2 v.day ++ "<sup>" ++ ordinal_suffix v.day ++ "</sup> of "
    ++ monthName v.month ++ " " ++ toString v.year

/-- The ordinal-suffix rule as the specification words it: day 1, 21, 31
gives "st"; day 2, 22 gives "nd"; day 3, 23 gives "rd"; every other day
gives "th". -/
def specOrdinalSuffix (day : Nat) : String :=
  if day = 1 ∨ day = 21 ∨ day = 31 then "st"
  else if day = 2 ∨ day = 22 then "nd"
  else if day = 3 ∨ day = 23 then "rd"
  else "th"

/-! ## Front-matter validation (lines 140-145).

`md.Meta` of the `meta` markdown extension maps each key to a list of
values (one per repeated line), so the metadata is an association list
from key to list of strings; `metadata["title"]` raises `KeyError` when
the key is absent and the unpacking `[post_title] = ...` raises
`ValueError` unless the list has exactly one element. -/

/-- Front-matter mapping produced by the `meta` extension: key to
list-of-values. -/
abbrev Metadata := List (String × List String)

/-- Dictionary lookup `metadata[key]`. -/
def Metadata.lookup (md : Metadata) (k : String) : Option (List String) :=
  (md.find? (fun p => p.1 == k)).map Prod.snd

/-- The exceptions the post loop can raise and catch: `KeyError` from a
missing metadata key, `ValueError` from unpacking a list whose length is
not one, `ValueError` from `dateutil.parser.parse`. -/
inductive MetaError where
  | keyError (key : String)
  | valueError (key : String)
  | dateValueError (text : String)
deriving Repr, DecidableEq

/-- One required-key unpacking `[x] = metadata[key]` (lines 143-145):
`KeyError` when the key is absent, `ValueError` unless exactly one
value. -/
def unpackSingle (md : Metadata) (key : String) : Except MetaError String :=
  match md.lookup key with
  | none => .error (.keyError key)
  | some [v] => .ok v
  | some _ => .error (.valueError key)

/-- The metadata-validation block of the post loop (lines 143-145): unpack
`title`, then `published`, then `extract`. -/
def validateMeta (md : Metadata) : Except MetaError (String × String × String) :=
  match unpackSingle md "title" with
  | .error err => .error err
  | .ok t =>
    match unpackSingle md "published" with
    | .error err => .error err
    | .ok p =>
      match unpackSingle md "extract" with
      | .error err => .error err
      | .ok e => .ok (t, p, e)

/-! ## Paths.

A relative path is its `pathlib` parts list; `with_suffix` follows
CPython's `PurePath`: the suffix of the final component is the part from
its last dot, provided that dot is neither the first character nor the
last, and `with_suffix` strips that suffix (when there is one) before
appending the new one. -/

/-- Python `s.startswith(t)`. -/
def startswith (s t : String) : Bool :=
  t.toList.isPrefixOf s.toList

/-- Python `s.endswith(t)`. -/
def endswith (s t : String) : Bool :=
  t.toList.isSuffixOf s.toList

/-- Index of the last `.` of a character list (CPython `str.rfind`). -/
def lastDotIdx : List Char → Option Nat
  | [] => none
  | c :: cs =>
    match lastDotIdx cs with
    | some i => some (i + 1)
    | none => if c = '.' then some 0 else none

/-- Length of the CPython `PurePath.suffix` of a file name given as a
character list: counted from the last dot when `0 < i < len - 1`,
otherwise the name has no suffix. -/
def nameSuffixLen (cs : List Char) : Nat :=
  match lastDotIdx cs with
  | none => 0
  | some i => if 0 < i ∧ i < cs.length - 1 then cs.length - i else 0

/-- CPython `PurePath.with_suffix` on a single file name: drop the old
suffix when there is one, then append the new suffix. -/
def withSuffixName (name suf : String) : String :=
  let cs := name.toList
  String.mk (cs.take (cs.length - nameSuffixLen cs)) ++ suf

/-- A `pathlib` relative path as its tuple of parts. -/
structure RelPath where
  parts : List String
deriving Repr, DecidableEq

/-- Rendering of a relative path (`str(path)`). -/
def RelPath.toString (p : RelPath) : String :=
  String.intercalate "/" p.parts

/-- `with_suffix` on a relative path: rewrites the final component. -/
def RelPath.withSuffix (p : RelPath) (suf : String) : RelPath :=
  ⟨p.parts.dropLast ++ [withSuffixName (p.parts.getLast?.getD "") suf]⟩

/-- Lines 150-153: the post output name relative to `build/posts`;
`.html` replaces the markdown suffix normally, and under deployment
(`CI` set) the suffix is stripped (`with_suffix("")`). -/
def post_html_path (is_deployment : Bool) (rel_path_md : RelPath) : RelPath :=
  if is_deployment then rel_path_md.withSuffix "" else rel_path_md.withSuffix ".html"

/-- Line 158: the recorded URL of a post. -/
def postUrl (is_deployment : Bool) (rel_path_md : RelPath) : String :=
  "/posts/" ++ (post_html_path is_deployment rel_path_md).toString

/-- Line 167: the output file path `"build" / ("posts" / post_html_path)`. -/
def postOutPath (is_deployment : Bool) (rel_path_md : RelPath) : RelPath :=
  ⟨"build" :: "posts" :: (post_html_path is_deployment rel_path_md).parts⟩

/-- Strip the final `".md"` of a name (three characters). -/
def dropMdExt (name : String) : String :=
  String.mk (name.toList.take (name.toList.length - 3))

/-- Modelled on the spec's words: the post output path is the
source-relative path with the markdown extension replaced by the HTML
extension, or stripped entirely under the deployment flag. -/
def specPostHtmlPath (is_deployment : Bool) (p : RelPath) : RelPath :=
  let name := p.parts.getLast?.getD ""
  ⟨p.parts.dropLast ++
    [if is_deployment then dropMdExt name else dropMdExt name ++ ".html"]⟩

/-! ## Asset-phase output paths (lines 181-196). -/

/-- Python `s.split(".")[0]`: the characters before the first dot. -/
def truncAtFirstDot (s : String) : String :=
  String.mk (s.toList.takeWhile (fun c => c ≠ '.'))

/-- Split a character list at every occurrence of a separator. -/
def splitOnChar (c : Char) : List Char → List (List Char)
  | [] => [[]]
  | x :: xs =>
    match splitOnChar c xs with
    | [] => [[]]
    | y :: ys => if x = c then [] :: y :: ys else (x :: y) :: ys

/-- Split a path string on `/` into parts. -/
def splitSlash (s : String) : List String :=
  (splitOnChar '/' s.toList).map String.mk

/-- `with_suffix` applied to a path given as a string: only the final
component is rewritten. -/
def pathWithSuffix (s suf : String) : String :=
  let parts := splitSlash s
  String.intercalate "/" (parts.dropLast ++ [withSuffixName (parts.getLast?.getD "") suf])

/-- Line 187: `out_path = "build" / Path(str(rel_path).split(".")[0]).with_suffix(".html")`. -/
def assetOutPathCode (rel : String) : String :=
  "build/" ++ pathWithSuffix (truncAtFirstDot rel) ".html"

/-- Modelled on the spec's words: strip the `.jinja.html` template suffix
from the relative path and append the HTML extension. -/
def assetOutPathSpec (rel : String) : String :=
  "build/" ++ String.mk (rel.toList.take (rel.toList.length - 11)) ++ ".html"

/-! ## Math inline processors (lines 49-92). -/

/-- The element `handleMatch` returns: its tag, its text, and the span
bounds of the replacement. -/
structure RenderedElement where
  tag : String
  text : String
  spanStart : Nat
  spanStop : Nat
deriving Repr, DecidableEq

/-- `MathPreprocessor.handleMatch` (lines 56-87).  The external process is
abstracted as `katex`, a function from the command line and the text
written to the process's stdin to the text read from its stdout.  The
handler rejects a captured group starting with `$`; in block mode it
builds a `p` element, runs the display-style command line `npx katex -d`
and prefixes the formula with the display-style directive; otherwise it
builds a `span`, runs `npx katex` and submits the formula unmodified. -/
def handleMatch (katex : String → String → String) (block : Bool) (dollars : Nat)
    (inner : String) (spanStart spanStop : Nat) : Option RenderedElement :=
  if startswith inner "$" then none
  else
    let tag := if block then "p" else "span"
    let command_line := if block then "npx katex -d" else "npx katex"
    let formula := if block then "\\displaystyle" ++ inner else inner
    some ⟨tag, katex command_line formula, spanStart - dollars, spanStop + dollars⟩

/-! ## Inline-pattern registry (lines 89-106, 130-134). -/

/-- One `md.inlinePatterns.register(..., name, priority)` call. -/
structure Registration where
  name : String
  priority : Nat
deriving Repr, DecidableEq

/-- Insert a registration in front of the first strictly
lower-priority entry. -/
def insertByPriority (r : Registration) : List Registration → List Registration
  | [] => [r]
  | x :: xs => if x.priority < r.priority then r :: x :: xs else x :: insertByPriority r xs

/-- The iteration order of markdown's `Registry`: registered items sorted
by priority, highest first; the pattern chain tries them in this order. -/
def registryOrder (regs : List Registration) : List String :=
  (regs.foldl (fun acc r => insertByPriority r acc) []).map Registration.name

/-- The inline-pattern registrations the build performs, in execution
order: `CustomLinkExtension.extendMarkdown` registers `customlink` at
priority 300 (line 106), then, unless `--no-math` was given,
`MathExtension.extendMarkdown` registers `mathinline` at 175 and
`mathblock` at 200 (lines 91-92, 130-132). -/
def inlineRegistrations (no_math : Bool) : List Registration :=
  if no_math then [⟨"customlink", 300⟩]
  else [⟨"customlink", 300⟩, ⟨"mathinline", 175⟩, ⟨"mathblock", 200⟩]

/-- The order in which the inline chain tries the three custom patterns. -/
def chainOrder (no_math : Bool) : List String :=
  registryOrder (inlineRegistrations no_math)

/-! ## The posts phase (lines 119-175). -/

/-- The extension names the build activates (lines 130-132): `meta` and
the custom link extension always, the math extensions unless `--no-math`
was given. -/
def extensionsFor (no_math : Bool) : List String :=
  if no_math then ["meta", "customlink"]
  else ["meta", "customlink", "mathinline", "mathblock"]

/-- The body of the posts loop (lines 128-171) for one markdown file, up
to the effects only `except (KeyError, ValueError)` can observe.
`convert` abstracts `markdown.Markdown(extensions=...).convert` together
with the resulting `md.Meta` mapping; `process_template` abstracts the
jinja pass over the converted body; `parseDate` abstracts
`dateutil.parser.parse`, `none` standing for its `ValueError`.  The steps
follow the source order: convert, template, unpack the three required
keys, compute the relative output path, parse the publish date inside the
`Post(...)` construction, and build the `Post` with `math_enabled=True`
(line 162). -/
def processPost (no_math is_deployment : Bool)
    (convert : List String → String → String × Metadata)
    (process_template : String → String)
    (parseDate : String → Option Datetime)
    (markdown_path : RelPath) (source : String) : Except MetaError Post :=
  let conv := convert (extensionsFor no_math) source
  let html_content := process_template conv.1
  match validateMeta conv.2 with
  | .error err => .error err
  | .ok tpe =>
    let rel_path_md : RelPath := ⟨markdown_path.parts.drop 1⟩
    match parseDate tpe.2.1 with
    | none => .error (.dateValueError tpe.2.1)
    | some d =>
      .ok { title := tpe.1
            url := postUrl is_deployment rel_path_md
            extract := tpe.2.2
            published := d
            html := html_content
            updated := none
            math_enabled := true }

/-- Outcome of the posts loop when a `KeyError`/`ValueError` occurs: the
`except` clause's message interpolates the module-level variable `post`
(line 175), which at that point still holds the `Post` built in a
previous iteration — or is unbound when no iteration has completed, in
which case the f-string itself raises `NameError`. -/
inductive BuildResult where
  | ok (posts : List Post)
  | wrappedError (named : Post)
  | nameError
deriving Repr, DecidableEq

/-- The posts loop (lines 125-175) with Python's variable semantics for
`post`: `prev` is the current binding of `post` (assigned only after a
successful `Post(...)` construction), `acc` the accumulated `posts`
list. -/
def postsLoop (no_math is_deployment : Bool)
    (convert : List String → String → String × Metadata)
    (process_template : String → String)
    (parseDate : String → Option Datetime)
    (prev : Option Post) (acc : List Post) :
    List (RelPath × String) → BuildResult
  | [] => .ok acc.reverse
  | (path, source) :: rest =>
    match processPost no_math is_deployment convert process_template parseDate path source with
    | .error _ =>
      match prev with
      | none => .nameError
      | some p => .wrappedError p
    | .ok post =>
      postsLoop no_math is_deployment convert process_template parseDate
        (some post) (post :: acc) rest

/-! ## Filesystem model for the assets phase (lines 181-196). -/

/-- Filesystem error raised when a file is opened for writing inside a
directory that does not exist. -/
inductive FsError where
  | fileNotFound
deriving Repr, DecidableEq

/-- Abstract filesystem state: the directories that exist and the files
written so far (path parts with contents). -/
structure FS where
  dirs : List (List String)
  files : List (List String × String)
deriving Repr, DecidableEq

/-- Parent directory of a path. -/
def parentParts (p : List String) : List String :=
  p.dropLast

/-- A path's parent exists when it is the working directory itself or a
directory of the state. -/
def parentExists (fs : FS) (p : List String) : Bool :=
  parentParts p = [] || fs.dirs.contains (parentParts p)

/-- All nonempty ancestor paths of a directory, itself included. -/
def prefixesOf (d : List String) : List (List String) :=
  (List.range d.length).map (fun i => d.take (i + 1))

/-- `path.mkdir(parents=True, exist_ok=True)`: the directory and all its
ancestors exist afterwards. -/
def mkdirParents (fs : FS) (d : List String) : FS :=
  ⟨prefixesOf d ++ fs.dirs, fs.files⟩

/-- `open(path, "wb")` followed by a write: fails with
`FileNotFoundError` when the parent directory is missing. -/
def writeFile (fs : FS) (p : List String) (content : String) : Except FsError FS :=
  if parentExists fs p then .ok ⟨fs.dirs, (p, content) :: fs.files⟩
  else .error .fileNotFound

/-- `shutil.copy(src, dst)`: opens `dst` for writing, so it fails with
`FileNotFoundError` when the parent directory of `dst` is missing. -/
def copyFile (fs : FS) (dst : List String) (content : String) : Except FsError FS :=
  if parentExists fs dst then .ok ⟨fs.dirs, (dst, content) :: fs.files⟩
  else .error .fileNotFound

/-- The body of the assets loop (lines 181-196) for one `filename` whose
source bytes are `content`.  `render` abstracts `process_template` with
the posts context already applied.  For a `.jinja.html` file the code
creates the output's parent directories before writing (line 188); for
every other file it calls `shutil.copy` directly, with no `mkdir`
first. -/
def processAssetFile (render : String → String) (fs : FS)
    (filename : String) (content : String) : Except FsError FS :=
  let rel := String.intercalate "/" ((splitSlash filename).drop 1)
  if endswith filename ".jinja.html" then
    let out_path := assetOutPathCode rel
    let fs2 := mkdirParents fs (parentParts (splitSlash out_path))
    writeFile fs2 (splitSlash out_path) (render content)
  else
    copyFile fs (splitSlash ("build/" ++ rel)) content

/-! ## Theorems -/

/-- C5: for every timestamp, `format_datetime` renders the zero-padded
day-of-month, then the specification's ordinal suffix (st for day 1, 21,
31; nd for 2, 22; rd for 3, 23; th otherwise) wrapped in a superscript
element, then the full month name and the year. -/
theorem format_datetime_spec (v : Datetime) :
    format_datetime v =
      pad2 v.day ++ "<sup>" ++ specOrdinalSuffix v.day ++ "</sup> of "
        ++ monthName v.month ++ " " ++ toString v.year := by
  have h : ordinal_suffix v.day = specOrdinalSuffix v.day := by
    simp [ordinal_suffix, specOrdinalSuffix]
  rw [format_datetime, h]

/-- C2, counterexample: the claim asserts that the inline chain tries
block-math, then inline-math, then link-shorthand; but with the
registered priorities (customlink 300, mathblock 200, mathinline 175) the
chain tries the link shorthand before the inline-math pattern, so the
claimed ordering is false. -/
theorem inline_chain_claim_false :
    ¬ ((chainOrder false).indexOf "mathblock" < (chainOrder false).indexOf "mathinline" ∧
       (chainOrder false).indexOf "mathinline" < (chainOrder false).indexOf "customlink") := by
  decide

/-- C2, amended: the chain tries the link-shorthand pattern first
(priority 300), then the block-math pattern (200), then the inline-math
pattern (175); in particular block-math is still tried before
inline-math. -/
theorem inline_chain_order :
    chainOrder false = ["customlink", "mathblock", "mathinline"] ∧
    (chainOrder false).indexOf "customlink" < (chainOrder false).indexOf "mathblock" ∧
    (chainOrder false).indexOf "mathblock" < (chainOrder false).indexOf "mathinline" := by
  decide

/-- C4 (code bug): on the relative path `dir.v2/index.jinja.html`, whose
directory component contains a literal dot, the assets phase truncates at
the first dot and writes `build/dir.html`, while the specified derivation
(strip the `.jinja.html` suffix, append `.html`) gives
`build/dir.v2/index.html`. -/
theorem assetOutPath_dotted_dir :
    assetOutPathCode "dir.v2/index.jinja.html" = "build/dir.html" ∧
    assetOutPathSpec "dir.v2/index.jinja.html" = "build/dir.v2/index.html" ∧
    assetOutPathCode "dir.v2/index.jinja.html" ≠
      assetOutPathSpec "dir.v2/index.jinja.html" := by
  refine ⟨by decide, by decide, by decide⟩

/-- C6: when the captured content does not begin with a dollar sign,
block mode runs the display-style command line `npx katex -d` and submits
the formula prefixed with the display-style directive on stdin, while
inline mode runs the plain `npx katex` and submits the formula
unmodified. -/
theorem handleMatch_modes (katex : String → String → String)
    (dollars spanStart spanStop : Nat) (inner : String)
    (h : startswith inner "$" = false) :
    handleMatch katex true dollars inner spanStart spanStop =
      some ⟨"p", katex "npx katex -d" ("\\displaystyle" ++ inner),
            spanStart - dollars, spanStop + dollars⟩ ∧
    handleMatch katex false dollars inner spanStart spanStop =
      some ⟨"span", katex "npx katex" inner,
            spanStart - dollars, spanStop + dollars⟩ := by
  constructor <;> simp [handleMatch, h]

/-- Witness for C6 at the concrete formula `x^2`. -/
theorem handleMatch_modes_witness :
    handleMatch (fun c f => c ++ "|" ++ f) true 3 "x^2" 10 15 =
      some ⟨"p", "npx katex -d|\\displaystylex^2", 7, 18⟩ := by
  rw [(handleMatch_modes (fun c f => c ++ "|" ++ f) 3 10 15 "x^2" (by decide)).1]
  rfl

/-- C7: the inline-math handler rejects any match whose captured content
begins with a dollar sign, returning no replacement. -/
theorem handleMatch_rejects_dollar (katex : String → String → String)
    (dollars spanStart spanStop : Nat) (inner : String)
    (h : startswith inner "$" = true) :
    handleMatch katex false dollars inner spanStart spanStop = none := by
  simp [handleMatch, h]

/-- Witness for C7 at the concrete captured content `$x`. -/
theorem handleMatch_rejects_dollar_witness :
    handleMatch (fun _ f => f) false 2 "$x" 0 4 = none :=
  handleMatch_rejects_dollar (fun _ f => f) 2 0 4 "$x" (by decide)

/-- One required-key unpack succeeds with `v` exactly when the key maps
to the one-element list `[v]`. -/
theorem unpackSingle_ok_iff (md : Metadata) (k v : String) :
    unpackSingle md k = .ok v ↔ md.lookup k = some [v] := by
  unfold unpackSingle
  cases h : md.lookup k with
  | none => simp
  | some l =>
    match l with
    | [] => simp
    | [x] => simp
    | x :: y :: t => simp

/-- Success of `validateMeta` is componentwise success of the three
unpacks. -/
theorem validateMeta_eq_ok_iff (md : Metadata) (t p e : String) :
    validateMeta md = .ok (t, p, e) ↔
      unpackSingle md "title" = .ok t ∧ unpackSingle md "published" = .ok p ∧
        unpackSingle md "extract" = .ok e := by
  unfold validateMeta
  cases h1 : unpackSingle md "title" with
  | error e1 => simp
  | ok t' =>
    cases h2 : unpackSingle md "published" with
    | error e2 => simp
    | ok p' =>
      cases h3 : unpackSingle md "extract" with
      | error e3 => simp
      | ok e' => simp [and_assoc]

/-- C1: front-matter validation succeeds exactly when `title`,
`published` and `extract` each map to exactly one value, returning those
values verbatim; otherwise it fails with a `KeyError`/`ValueError`; and a
successfully built `Post` carries the validated title and extract
verbatim and the parse of the validated publish date. -/
theorem validateMeta_spec (md : Metadata) :
    (∀ t p e, validateMeta md = .ok (t, p, e) ↔
      (md.lookup "title" = some [t] ∧ md.lookup "published" = some [p] ∧
        md.lookup "extract" = some [e])) ∧
    ((∃ err, validateMeta md = .error err) ↔
      ¬ (∃ t p e, md.lookup "title" = some [t] ∧ md.lookup "published" = some [p] ∧
        md.lookup "extract" = some [e])) ∧
    (∀ (no_math is_deployment : Bool)
      (convert : List String → String → String × Metadata)
      (process_template : String → String) (parseDate : String → Option Datetime)
      (markdown_path : RelPath) (source : String) (post : Post) (t p e : String),
      (convert (extensionsFor no_math) source).2 = md →
      validateMeta md = .ok (t, p, e) →
      processPost no_math is_deployment convert process_template parseDate
        markdown_path source = .ok post →
      post.title = t ∧ post.extract = e ∧ parseDate p = some post.published) := by
  have hiff : ∀ t p e, validateMeta md = .ok (t, p, e) ↔
      (md.lookup "title" = some [t] ∧ md.lookup "published" = some [p] ∧
        md.lookup "extract" = some [e]) := by
    intro t p e
    rw [validateMeta_eq_ok_iff, unpackSingle_ok_iff, unpackSingle_ok_iff,
      unpackSingle_ok_iff]
  refine ⟨hiff, ?_, ?_⟩
  · cases hv : validateMeta md with
    | error err =>
      constructor
      · intro _
        rintro ⟨t, p, e, h1, h2, h3⟩
        have h4 := (hiff t p e).mpr ⟨h1, h2, h3⟩
        rw [hv] at h4
        cases h4
      · intro _
        exact ⟨err, rfl⟩
    | ok x =>
      obtain ⟨t, p, e⟩ := x
      constructor
      · rintro ⟨err, herr⟩
        cases herr
      · intro hne
        exact absurd ⟨t, p, e, (hiff t p e).mp hv⟩ hne
  · intro no_math is_deployment convert process_template parseDate markdown_path
      source post t p e hcv hok hpp
    simp only [processPost, hcv, hok] at hpp
    cases hpd : parseDate p with
    | none => rw [hpd] at hpp; cases hpp
    | some d =>
      rw [hpd] at hpp
      cases hpp
      exact ⟨rfl, rfl, rfl⟩

/-- Witness for C1: a front-matter block with exactly one value per
required key validates to those values. -/
theorem validateMeta_spec_witness :
    validateMeta [("title", ["T"]), ("published", ["2024-01-02"]), ("extract", ["X"])] =
      .ok ("T", "2024-01-02", "X") :=
  ((validateMeta_spec _).1 "T" "2024-01-02" "X").mpr (by decide)

/-- C9: every `Post` the build constructs has `math_enabled = true`, for
either value of the `--no-math` switch (the switch only changes the
extension list handed to the converter). -/
theorem processPost_math_enabled (no_math is_deployment : Bool)
    (convert : List String → String → String × Metadata)
    (process_template : String → String) (parseDate : String → Option Datetime)
    (markdown_path : RelPath) (source : String) (post : Post)
    (h : processPost no_math is_deployment convert process_template parseDate
      markdown_path source = .ok post) :
    post.math_enabled = true := by
  simp only [processPost] at h
  cases hv : validateMeta (convert (extensionsFor no_math) source).2 with
  | error err => rw [hv] at h; simp at h
  | ok tpe =>
    simp only [hv] at h
    cases hpd : parseDate tpe.2.1 with
    | none => rw [hpd] at h; simp at h
    | some d =>
      rw [hpd] at h
      cases h
      rfl

/-- Witness for C9: with `--no-math` given, the concrete post still has
`math_enabled = true`. -/
theorem processPost_math_enabled_witness :
    ({ title := "T", url := "/posts/a.html", extract := "X",
       published := ⟨2024, 1, 2⟩, html := "b", updated := none,
       math_enabled := true } : Post).math_enabled = true :=
  processPost_math_enabled true false
    (fun _ _ => ("b", [("title", ["T"]), ("published", ["2024-01-02"]), ("extract", ["X"])]))
    (fun s => s) (fun _ => some ⟨2024, 1, 2⟩) ⟨["posts", "a.md"]⟩ "src" _ rfl

/-- C3 (code bug): the `except` clause's message interpolates the
module-level `post` variable, which is assigned only after a successful
construction.  With a valid first post and a second post whose front
matter lacks `title`, the build aborts with a message naming the FIRST
post, not the offending second file; and when the offender is the very
first post, the f-string itself raises `NameError` because `post` is
unbound, so no file identity is reported at all. -/
theorem postsLoop_wraps_stale_post :
    postsLoop false false
      (fun _ src =>
        if src = "good" then
          ("<p>g</p>",
            [("title", ["First"]), ("published", ["2024-01-02"]), ("extract", ["E"])])
        else ("<p>b</p>", [("published", ["2024-01-02"])]))
      (fun s => s) (fun _ => some ⟨2024, 1, 2⟩) none []
      [(⟨["posts", "first.md"]⟩, "good"), (⟨["posts", "second.md"]⟩, "bad")] =
      .wrappedError
        { title := "First", url := "/posts/first.html", extract := "E",
          published := ⟨2024, 1, 2⟩, html := "<p>g</p>", updated := none,
          math_enabled := true } ∧
    postsLoop false false
      (fun _ src =>
        if src = "good" then
          ("<p>g</p>",
            [("title", ["First"]), ("published", ["2024-01-02"]), ("extract", ["E"])])
        else ("<p>b</p>", [("published", ["2024-01-02"])]))
      (fun s => s) (fun _ => some ⟨2024, 1, 2⟩) none []
      [(⟨["posts", "second.md"]⟩, "bad")] = .nameError := by
  exact ⟨by decide, by decide⟩

/-- The last dot of a name ending in `.md` sits right before the `md`. -/
theorem lastDotIdx_append_dot_md (ys : List Char) :
    lastDotIdx (ys ++ ['.', 'm', 'd']) = some ys.length := by
  induction ys with
  | nil => rfl
  | cons c ys ih => simp [lastDotIdx, ih]

/-- A nonempty name ending in `.md` has the three-character suffix `.md`. -/
theorem nameSuffixLen_md (ys : List Char) (hne : ys ≠ []) :
    nameSuffixLen (ys ++ ['.', 'm', 'd']) = 3 := by
  have h0 : 0 < ys.length := List.length_pos.mpr hne
  unfold nameSuffixLen
  rw [lastDotIdx_append_dot_md]
  simp only [List.length_append, List.length_cons, List.length_nil]
  rw [if_pos]
  · omega
  · exact ⟨h0, by omega⟩

/-- `with_suffix` on a name `stem.md` with nonempty stem replaces the
`.md` suffix. -/
theorem withSuffixName_md (stem suf : String) (h : stem.toList ≠ []) :
    withSuffixName (stem ++ ".md") suf = stem ++ suf := by
  have hdata : (stem ++ ".md").toList = stem.toList ++ ['.', 'm', 'd'] := by
    rw [String.toList, String.data_append]
    rfl
  simp only [withSuffixName, hdata]
  rw [nameSuffixLen_md _ h]
  have hlen : (stem.toList ++ ['.', 'm', 'd']).length - 3 = stem.toList.length := by
    simp
  rw [hlen, List.take_left]
  rfl

/-- Stripping the markdown extension of `stem.md` gives the stem. -/
theorem dropMdExt_append (stem : String) : dropMdExt (stem ++ ".md") = stem := by
  have hdata : (stem ++ ".md").toList = stem.toList ++ ['.', 'm', 'd'] := by
    rw [String.toList, String.data_append]
    rfl
  simp only [dropMdExt, hdata]
  have hlen : (stem.toList ++ ['.', 'm', 'd']).length - 3 = stem.toList.length := by
    simp
  rw [hlen, List.take_left]
  rfl

/-- C8: for every markdown source path (directories plus a name
`stem.md`, stem nonempty), the post output name is the source-relative
path with `.md` replaced by `.html` when the deployment variable is
absent and with `.md` stripped entirely when it is present, exactly as
the spec-derived path states; the recorded URL is that path under the
`/posts/` prefix, and the written file sits under `build/posts/`. -/
theorem post_html_path_spec (is_deployment : Bool) (dirs : List String) (stem : String)
    (h : stem.toList ≠ []) :
    post_html_path is_deployment ⟨dirs ++ [stem ++ ".md"]⟩ =
      specPostHtmlPath is_deployment ⟨dirs ++ [stem ++ ".md"]⟩ ∧
    postUrl is_deployment ⟨dirs ++ [stem ++ ".md"]⟩ =
      "/posts/" ++ (specPostHtmlPath is_deployment ⟨dirs ++ [stem ++ ".md"]⟩).toString ∧
    postOutPath is_deployment ⟨dirs ++ [stem ++ ".md"]⟩ =
      ⟨"build" :: "posts" ::
        (specPostHtmlPath is_deployment ⟨dirs ++ [stem ++ ".md"]⟩).parts⟩ := by
  have hmain : post_html_path is_deployment ⟨dirs ++ [stem ++ ".md"]⟩ =
      specPostHtmlPath is_deployment ⟨dirs ++ [stem ++ ".md"]⟩ := by
    cases is_deployment with
    | false =>
      simp only [post_html_path, specPostHtmlPath, RelPath.withSuffix,
        Bool.false_eq_true, if_false, List.dropLast_concat, List.getLast?_concat,
        Option.getD_some]
      rw [withSuffixName_md _ _ h, dropMdExt_append]
    | true =>
      simp only [post_html_path, specPostHtmlPath, RelPath.withSuffix,
        if_true, List.dropLast_concat, List.getLast?_concat, Option.getD_some]
      rw [withSuffixName_md _ _ h, dropMdExt_append, String.append_empty]
  refine ⟨hmain, ?_, ?_⟩
  · rw [postUrl, hmain]
  · rw [postOutPath, hmain]

/-- Witness for C8 at the concrete source path `sub/a.md`. -/
theorem post_html_path_spec_witness :
    post_html_path false ⟨["sub", "a.md"]⟩ = specPostHtmlPath false ⟨["sub", "a.md"]⟩ ∧
    post_html_path true ⟨["sub", "a.md"]⟩ = specPostHtmlPath true ⟨["sub", "a.md"]⟩ :=
  ⟨(post_html_path_spec false ["sub"] "a" (by decide)).1,
   (post_html_path_spec true ["sub"] "a" (by decide)).1⟩

/-- A nonempty directory is among its own ancestor paths. -/
theorem self_mem_prefixesOf (d : List String) (h : d ≠ []) : d ∈ prefixesOf d := by
  have h0 : 0 < d.length := List.length_pos.mpr h
  refine List.mem_map.mpr ⟨d.length - 1, List.mem_range.mpr (by omega), ?_⟩
  rw [Nat.sub_add_cancel h0, List.take_length]

/-- After `mkdir(parents=True, exist_ok=True)` on a path's parent, that
parent exists. -/
theorem parentExists_mkdirParents (fs : FS) (p : List String) :
    parentExists (mkdirParents fs (parentParts p)) p = true := by
  unfold parentExists mkdirParents
  by_cases h : parentParts p = []
  · simp [h]
  · have hm := self_mem_prefixesOf (parentParts p) h
    simp [h, List.contains_iff_exists_mem_beq]
    exact Or.inl hm

/-- C10: the copy branch of the assets phase calls `shutil.copy` with no
preceding `mkdir`, so a non-template file whose mirrored parent directory
does not exist in the output tree makes the build abort with
`FileNotFoundError`; a template file in the same state succeeds, because
the template branch creates the output's parent directories before
writing. -/
theorem processAssetFile_copy_missing_parent (render : String → String) (fs : FS)
    (filename content : String)
    (hnt : endswith filename ".jinja.html" = false)
    (hpar : parentExists fs
      (splitSlash ("build/" ++ String.intercalate "/" ((splitSlash filename).drop 1))) =
      false) :
    processAssetFile render fs filename content = .error .fileNotFound ∧
    (∀ (filename2 content2 : String), endswith filename2 ".jinja.html" = true →
      ∃ fs2, processAssetFile render fs filename2 content2 = .ok fs2) := by
  constructor
  · simp only [processAssetFile, hnt, Bool.false_eq_true, if_false, copyFile, hpar]
  · intro f2 c2 h2
    simp only [processAssetFile, h2, if_true, writeFile, parentExists_mkdirParents]
    exact ⟨_, rfl⟩

/-- Witness for C10: on an empty output tree, copying `site/sub/robots.txt`
fails because `build/sub` does not exist. -/
theorem processAssetFile_copy_missing_parent_witness :
    processAssetFile (fun s => s) ⟨[], []⟩ "site/sub/robots.txt" "data" =
      .error .fileNotFound :=
  (processAssetFile_copy_missing_parent (fun s => s) ⟨[], []⟩ "site/sub/robots.txt"
    "data" (by decide) (by decide)).1

end Script
